import Mathlib

/-!
Shallow embedding of the hh.ru → Telegram notification pipeline
(`bot.py`, `hh_web.py`, `db_models.py`).

The embedding models:
  * the persisted rows (`User`, `Notification` from `db_models.py`) as Lean
    structures; machine ids and timestamps are `Nat`;
  * the rejection classifier (`REJECTION_PATTERNS` and the inline
    `any(p in t_low ...)` check of `bot.py`) as a Boolean function on strings;
  * one cycle of the delivery worker (`notifications_worker`, bot.py 136-159)
    as a fold over the joined, sorted rows, with the Telegram send call
    abstracted as a success predicate `sendOk` on the notification id and the
    call trace recorded as a list of notification ids in call order;
  * one cycle of the poll ingestor (`hh_messages_worker`, bot.py 182-265) as
    a fold over users, negotiations and messages, threading the notification
    store (the SQLAlchemy session autoflushes pending adds, so the dedup
    select inside one cycle sees notifications added earlier in that cycle);
  * the webhook endpoint (`hh_webhook`, hh_web.py 192-263) as a function from
    the parsed JSON body to an HTTP response plus the updated store.  A body
    missing one of the required pydantic fields makes `WebhookEvent(**data)`
    raise a `pydantic.ValidationError`; FastAPI installs no handler for that
    exception, so the framework turns it into a plain 500 response, which the
    model returns explicitly.

Python string semantics used by the code are modelled explicitly:
`str(None)` is the literal string "None" (`pyStr`), `a or b` on strings
treats `None` and the empty string as falsy (`pyOrStr`), and `str.lower` is
modelled for the character ranges the fixed phrase lists exercise
(ASCII plus the Cyrillic block А-Я/Ё, `pyLowerChar`).
-/

/-! ## Data model (`db_models.py`) -/

/-- Row of the `users` table (`db_models.py`, class `User`).  Only the columns
read by the pipeline are carried. -/
structure User where
  id : Nat
  telegram_id : Nat
  hh_user_id : Option String
  hh_access_token : Option String
  mute_rejections : Bool
deriving DecidableEq, Repr

/-- Row of the `notifications` table (`db_models.py`, class `Notification`). -/
structure Notification where
  id : Nat
  user_id : Nat
  kind : String
  hh_object_id : Option String
  text : String
  is_rejection : Bool
  sent : Bool
  created_at : Nat
deriving DecidableEq, Repr

/-! ## Python string primitives -/

/-- Python `str(x)` for an optional string: `str(None) = "None"`. -/
def pyStr : Option String → String
  | some s => s
  | none => "None"

/-- Python `a or b` on optional strings: `None` and `""` are falsy. -/
def pyOrStr : Option String → Option String → Option String
  | some s, b => if s == "" then b else some s
  | none, b => b

/-- Python `str.lower` restricted to the characters the fixed phrase lists
can distinguish: upper Cyrillic А-Я and Ё map to their lowercase forms,
ASCII letters via `Char.toLower`, everything else unchanged. -/
def pyLowerChar (c : Char) : Char :=
  if 0x410 ≤ c.toNat ∧ c.toNat ≤ 0x42F then Char.ofNat (c.toNat + 0x20)
  else if c.toNat = 0x401 then Char.ofNat 0x451
  else c.toLower

/-- Python `s.lower()` (see `pyLowerChar`). -/
def pyLower (s : String) : String :=
  String.mk (s.toList.map pyLowerChar)

/-- Python `pat in hay` for strings: substring containment, computed over the
character lists. -/
def strContains (hay pat : String) : Bool :=
  hay.toList.tails.any (fun t => pat.toList.isPrefixOf t)

/-! ## Classifier (`bot.py` 22-30, 252-254) -/

/-- The fixed rejection phrase list, `REJECTION_PATTERNS` of `bot.py`. -/
def REJECTION_PATTERNS : List String :=
  [ "к сожалению",
    "к сожелению",
    "мы не готовы вас принять",
    "вы нам не подходите",
    "вынуждены отказать",
    "отказ",
    "не сможем продолжить" ]

/-- The inline classification of `hh_messages_worker` (bot.py 252-254):
lower-case the text, then check whether any configured phrase occurs in it. -/
def classify (text : String) : Bool :=
  let t_low := pyLower text
  REJECTION_PATTERNS.any (fun p => strContains t_low p)

/-! ## classifier lemmas -/

theorem strContains_iff (hay pat : String) :
    strContains hay pat = true ↔ pat.toList <:+: hay.toList := by
  unfold strContains
  rw [List.any_eq_true]
  constructor
  · rintro ⟨t, ht, hpre⟩
    rw [List.mem_tails] at ht
    rw [List.isPrefixOf_iff_prefix] at hpre
    exact List.infix_iff_prefix_suffix.mpr ⟨t, hpre, ht⟩
  · intro h
    rcases List.infix_iff_prefix_suffix.mp h with ⟨t, hpre, hsuf⟩
    exact ⟨t, (List.mem_tails t hay.toList).mpr hsuf,
      List.isPrefixOf_iff_prefix.mpr hpre⟩

/-- C3: the classifier returns true exactly when some configured phrase is a
substring of the lower-cased input, and returns false on the empty string. -/
theorem classify_correct (s : String) :
    (classify s = true ↔ ∃ p ∈ REJECTION_PATTERNS, p.toList <:+: (pyLower s).toList) ∧
    classify "" = false := by
  constructor
  · unfold classify
    rw [List.any_eq_true]
    constructor
    · rintro ⟨p, hp, hc⟩
      exact ⟨p, hp, (strContains_iff _ _).mp hc⟩
    · rintro ⟨p, hp, hinf⟩
      exact ⟨p, hp, (strContains_iff _ _).mpr hinf⟩
  · decide

/-! ## Delivery worker (`notifications_worker`, bot.py 129-164) -/

/-- Effect of `notif.sent = True` on the store: the row with the given id is
marked sent. -/
def markSent (store : List Notification) (i : Nat) : List Notification :=
  store.map (fun n => if n.id == i then { n with sent := true } else n)

/-- Comparison used by `order_by(Notification.created_at)`. -/
def rowLE (a b : Notification × User) : Prop :=
  a.1.created_at ≤ b.1.created_at

instance : DecidableRel rowLE := fun _ _ => Nat.decLe _ _

instance : IsTotal (Notification × User) rowLE :=
  ⟨fun _ _ => Nat.le_total _ _⟩

instance : IsTrans (Notification × User) rowLE :=
  ⟨fun _ _ _ => Nat.le_trans⟩

/-- The select of bot.py 139-145: all unsent notifications joined to their
owning user, ordered by creation time ascending. -/
def joinRows (users : List User) (store : List Notification) :
    List (Notification × User) :=
  List.insertionSort rowLE
    ((store.filter (fun n => n.sent == false)).filterMap
      (fun n => (users.find? (fun v => v.id == n.user_id)).map (fun v => (n, v))))

/-- Condition of bot.py 149: the row is a rejection and its user muted
rejections. -/
def rowMuted (r : Notification × User) : Bool :=
  r.1.is_rejection && r.2.mute_rejections

/-- Body of the for-loop of bot.py 147-157 for one row.  A muted rejection is
marked sent with no send call; otherwise the send call is recorded (second
component) and the row is marked sent only if the call succeeded. -/
def stepRow (sendOk : Nat → Bool) (acc : List Notification × List Nat)
    (r : Notification × User) : List Notification × List Nat :=
  if rowMuted r then (markSent acc.1 r.1.id, acc.2)
  else if sendOk r.1.id then (markSent acc.1 r.1.id, acc.2 ++ [r.1.id])
  else (acc.1, acc.2 ++ [r.1.id])

/-- One cycle of `notifications_worker`: the updated store together with the
ids of the notifications for which a Telegram send call was made, in call
order.  `sendOk` abstracts whether `bot.send_message` succeeds for a given
notification. -/
def deliveryCycle (users : List User) (store : List Notification)
    (sendOk : Nat → Bool) : List Notification × List Nat :=
  (joinRows users store).foldl (stepRow sendOk) (store, [])

/-- A row is marked sent by its loop iteration iff it is muted or its send
call succeeds. -/
def rowMarks (sendOk : Nat → Bool) (r : Notification × User) : Bool :=
  rowMuted r || sendOk r.1.id

/-! ## delivery worker fold lemmas -/

theorem stepRow_fst (sendOk : Nat → Bool) (acc : List Notification × List Nat)
    (r : Notification × User) :
    (stepRow sendOk acc r).1 =
      (if rowMarks sendOk r then markSent acc.1 r.1.id else acc.1) := by
  cases hm : rowMuted r <;> cases hs : sendOk r.1.id <;>
    simp [stepRow, rowMarks, hm, hs]

theorem stepRow_snd (sendOk : Nat → Bool) (acc : List Notification × List Nat)
    (r : Notification × User) :
    (stepRow sendOk acc r).2 =
      (if rowMuted r then acc.2 else acc.2 ++ [r.1.id]) := by
  cases hm : rowMuted r <;> cases hs : sendOk r.1.id <;>
    simp [stepRow, hm, hs]

theorem foldl_stepRow_calls (sendOk : Nat → Bool)
    (rows : List (Notification × User)) (acc : List Notification × List Nat) :
    (rows.foldl (stepRow sendOk) acc).2 =
      acc.2 ++ (rows.filter (fun r => !rowMuted r)).map (fun r => r.1.id) := by
  induction rows generalizing acc with
  | nil => simp
  | cons r rs ih =>
    rw [List.foldl_cons, ih, stepRow_snd, List.filter_cons]
    cases hm : rowMuted r with
    | true => simp [hm]
    | false => simp [hm]

theorem foldl_stepRow_store (sendOk : Nat → Bool)
    (rows : List (Notification × User)) (acc : List Notification × List Nat) :
    (rows.foldl (stepRow sendOk) acc).1 =
      acc.1.map (fun n =>
        if rows.any (fun r => rowMarks sendOk r && (r.1.id == n.id)) then
          { n with sent := true }
        else n) := by
  induction rows generalizing acc with
  | nil => simp
  | cons r rs ih =>
    rw [List.foldl_cons, ih, stepRow_fst]
    cases hr : rowMarks sendOk r with
    | true =>
      simp only [if_true, markSent, List.map_map]
      apply List.map_congr_left
      intro n _
      simp only [Function.comp_apply]
      by_cases hid : n.id = r.1.id
      · have hid2 : (n.id == r.1.id) = true := beq_iff_eq.mpr hid
        have hid3 : (r.1.id == n.id) = true := beq_iff_eq.mpr hid.symm
        simp [List.any_cons, hr, hid2, hid3]
      · have hid2 : (n.id == r.1.id) = false := beq_eq_false_iff_ne.mpr hid
        have hid3 : (r.1.id == n.id) = false :=
          beq_eq_false_iff_ne.mpr (Ne.symm hid)
        simp only [List.any_cons, hid2, hid3, Bool.false_eq_true, if_false,
          Bool.and_false, Bool.false_or]
    | false =>
      simp only [Bool.false_eq_true, if_false]
      apply List.map_congr_left
      intro n _
      simp only [List.any_cons, hr, Bool.false_and, Bool.false_or]

theorem mem_joinRows (users : List User) (store : List Notification)
    {n : Notification} {u : User} :
    (n, u) ∈ joinRows users store ↔
      n ∈ store ∧ n.sent = false ∧
        users.find? (fun v => v.id == n.user_id) = some u := by
  unfold joinRows
  rw [(List.perm_insertionSort rowLE _).mem_iff, List.mem_filterMap]
  constructor
  · rintro ⟨a, ha, hmap⟩
    rcases Option.map_eq_some'.mp hmap with ⟨u', hfind, heq⟩
    rw [Prod.mk.injEq] at heq
    obtain ⟨rfl, rfl⟩ := heq
    rw [List.mem_filter] at ha
    exact ⟨ha.1, by simpa using ha.2, hfind⟩
  · rintro ⟨hmem, hsent, hfind⟩
    refine ⟨n, List.mem_filter.mpr ⟨hmem, by simp [hsent]⟩, ?_⟩
    rw [hfind]
    rfl

theorem joinRows_sorted (users : List User) (store : List Notification) :
    List.Sorted rowLE (joinRows users store) :=
  List.sorted_insertionSort rowLE _

theorem pair_sublist_of_sorted {l : List (Notification × User)}
    (hs : List.Sorted rowLE l) {x y : Notification × User}
    (hx : x ∈ l) (hy : y ∈ l) (hxy : x.1.created_at < y.1.created_at) :
    List.Sublist [x, y] l := by
  induction l with
  | nil => cases hx
  | cons a t ih =>
    rw [List.sorted_cons] at hs
    rcases List.mem_cons.mp hx with rfl | hx'
    · rcases List.mem_cons.mp hy with rfl | hy'
      · exact absurd hxy (lt_irrefl _)
      · exact List.Sublist.cons₂ x (List.singleton_sublist.mpr hy')
    · rcases List.mem_cons.mp hy with rfl | hy'
      · have h2 := hs.1 x hx'
        unfold rowLE at h2
        omega
      · exact List.Sublist.cons a (ih hs.2 hx' hy')

theorem triple_sublist_of_sorted {l : List (Notification × User)}
    (hs : List.Sorted rowLE l) {x y z : Notification × User}
    (hx : x ∈ l) (hy : y ∈ l) (hz : z ∈ l)
    (hxy : x.1.created_at < y.1.created_at)
    (hyz : y.1.created_at < z.1.created_at) :
    List.Sublist [x, y, z] l := by
  induction l with
  | nil => cases hx
  | cons a t ih =>
    rw [List.sorted_cons] at hs
    rcases List.mem_cons.mp hx with rfl | hx'
    · have hy' : y ∈ t := by
        rcases List.mem_cons.mp hy with rfl | h
        · exact absurd hxy (lt_irrefl _)
        · exact h
      have hz' : z ∈ t := by
        rcases List.mem_cons.mp hz with rfl | h
        · exact absurd (hxy.trans hyz) (lt_irrefl _)
        · exact h
      exact List.Sublist.cons₂ x (pair_sublist_of_sorted hs.2 hy' hz' hyz)
    · have hy' : y ∈ t := by
        rcases List.mem_cons.mp hy with rfl | h
        · have h2 := hs.1 x hx'
          unfold rowLE at h2
          omega
        · exact h
      have hz' : z ∈ t := by
        rcases List.mem_cons.mp hz with rfl | h
        · have h2 := hs.1 x hx'
          unfold rowLE at h2
          omega
        · exact h
      exact List.Sublist.cons a (ih hs.2 hx' hy' hz')

/-- C1: in one delivery worker cycle, a pending rejection notification whose
owning user muted rejections is marked sent and gets no send call, while one
whose owning user did not mute gets a send call. -/
theorem deliveryCycle_mute (users : List User) (store : List Notification)
    (sendOk : Nat → Bool) (x : Notification) (u : User)
    (hnodup : (store.map (fun n => n.id)).Nodup)
    (hx : x ∈ store) (hsent : x.sent = false) (hrej : x.is_rejection = true)
    (hfind : users.find? (fun v => v.id == x.user_id) = some u) :
    (u.mute_rejections = true →
      (∀ m ∈ (deliveryCycle users store sendOk).1, m.id = x.id → m.sent = true) ∧
      x.id ∉ (deliveryCycle users store sendOk).2) ∧
    (u.mute_rejections = false →
      x.id ∈ (deliveryCycle users store sendOk).2) := by
  have hrow : (x, u) ∈ joinRows users store :=
    (mem_joinRows users store).mpr ⟨hx, hsent, hfind⟩
  have hres1 : (deliveryCycle users store sendOk).1 =
      store.map (fun n =>
        if (joinRows users store).any
            (fun r => rowMarks sendOk r && (r.1.id == n.id)) then
          { n with sent := true }
        else n) :=
    foldl_stepRow_store sendOk (joinRows users store) (store, [])
  have hres2 : (deliveryCycle users store sendOk).2 =
      ((joinRows users store).filter (fun r => !rowMuted r)).map
        (fun r => r.1.id) :=
    foldl_stepRow_calls sendOk (joinRows users store) (store, [])
  constructor
  · intro hmute
    constructor
    · intro m hm hmid
      rw [hres1] at hm
      obtain ⟨n₀, hn₀, rfl⟩ := List.mem_map.mp hm
      have hids : n₀.id = x.id := by
        revert hmid
        split <;> intro hmid <;> exact hmid
      have hnx : n₀ = x :=
        List.inj_on_of_nodup_map hnodup hn₀ hx hids
      subst hnx
      have hany : (joinRows users store).any
          (fun r => rowMarks sendOk r && (r.1.id == n₀.id)) = true :=
        List.any_eq_true.mpr ⟨(n₀, u), hrow,
          by simp [rowMarks, rowMuted, hrej, hmute]⟩
      simp [hany]
    · intro hmem
      rw [hres2] at hmem
      obtain ⟨r, hrf, hrid⟩ := List.mem_map.mp hmem
      obtain ⟨n₁, u₁⟩ := r
      have hrmem := List.mem_filter.mp hrf
      have hj := (mem_joinRows users store).mp hrmem.1
      have hnx : n₁ = x :=
        List.inj_on_of_nodup_map hnodup hj.1 hx hrid
      subst hnx
      have hu : u₁ = u := by
        have := hj.2.2
        rw [hfind] at this
        exact (Option.some.inj this).symm
      subst hu
      have := hrmem.2
      simp [rowMuted, hrej, hmute] at this
  · intro hmute
    rw [hres2]
    apply List.mem_map.mpr
    refine ⟨(x, u), List.mem_filter.mpr ⟨hrow, ?_⟩, rfl⟩
    simp [rowMuted, hmute]

/-- C4: unsent notifications with strictly increasing creation times produce
their send calls in creation order within one delivery worker cycle. -/
theorem deliveryCycle_ordered (users : List User) (store : List Notification)
    (sendOk : Nat → Bool) (a b c : Notification) (ua ub uc : User)
    (ha : a ∈ store) (hb : b ∈ store) (hc : c ∈ store)
    (hsa : a.sent = false) (hsb : b.sent = false) (hsc : c.sent = false)
    (hra : a.is_rejection = false) (hrb : b.is_rejection = false)
    (hrc : c.is_rejection = false)
    (hua : users.find? (fun v => v.id == a.user_id) = some ua)
    (hub : users.find? (fun v => v.id == b.user_id) = some ub)
    (huc : users.find? (fun v => v.id == c.user_id) = some uc)
    (huab : a.user_id = b.user_id) (hubc : b.user_id = c.user_id)
    (hab : a.created_at < b.created_at) (hbc : b.created_at < c.created_at) :
    List.Sublist [a.id, b.id, c.id] (deliveryCycle users store sendOk).2 := by
  have hrowa : (a, ua) ∈ joinRows users store :=
    (mem_joinRows users store).mpr ⟨ha, hsa, hua⟩
  have hrowb : (b, ub) ∈ joinRows users store :=
    (mem_joinRows users store).mpr ⟨hb, hsb, hub⟩
  have hrowc : (c, uc) ∈ joinRows users store :=
    (mem_joinRows users store).mpr ⟨hc, hsc, huc⟩
  have htri : List.Sublist [(a, ua), (b, ub), (c, uc)] (joinRows users store) :=
    triple_sublist_of_sorted (joinRows_sorted users store)
      hrowa hrowb hrowc hab hbc
  have hfil := htri.filter (fun r => !rowMuted r)
  have hkeep : ([(a, ua), (b, ub), (c, uc)].filter (fun r => !rowMuted r)) =
      [(a, ua), (b, ub), (c, uc)] := by
    simp [rowMuted, hra, hrb, hrc]
  rw [hkeep] at hfil
  have hmap := hfil.map (fun r => r.1.id)
  have hres2 : (deliveryCycle users store sendOk).2 =
      ((joinRows users store).filter (fun r => !rowMuted r)).map
        (fun r => r.1.id) :=
    foldl_stepRow_calls sendOk (joinRows users store) (store, [])
  rw [hres2]
  simpa using hmap

/-- C5: a failed send call leaves that notification unsent while the other
pending notifications of the same cycle are still called and marked sent. -/
theorem deliveryCycle_partial_failure (users : List User)
    (store : List Notification) (sendOk : Nat → Bool)
    (a b : Notification) (ua ub : User)
    (hnodup : (store.map (fun n => n.id)).Nodup)
    (ha : a ∈ store) (hb : b ∈ store)
    (hsa : a.sent = false) (hsb : b.sent = false)
    (hra : a.is_rejection = false) (hrb : b.is_rejection = false)
    (hua : users.find? (fun v => v.id == a.user_id) = some ua)
    (hub : users.find? (fun v => v.id == b.user_id) = some ub)
    (hfa : sendOk a.id = false) (hfb : sendOk b.id = true) :
    (∀ m ∈ (deliveryCycle users store sendOk).1, m.id = a.id → m.sent = false) ∧
    (∀ m ∈ (deliveryCycle users store sendOk).1, m.id = b.id → m.sent = true) ∧
    a.id ∈ (deliveryCycle users store sendOk).2 ∧
    b.id ∈ (deliveryCycle users store sendOk).2 := by
  have hrowa : (a, ua) ∈ joinRows users store :=
    (mem_joinRows users store).mpr ⟨ha, hsa, hua⟩
  have hrowb : (b, ub) ∈ joinRows users store :=
    (mem_joinRows users store).mpr ⟨hb, hsb, hub⟩
  have hres1 : (deliveryCycle users store sendOk).1 =
      store.map (fun n =>
        if (joinRows users store).any
            (fun r => rowMarks sendOk r && (r.1.id == n.id)) then
          { n with sent := true }
        else n) :=
    foldl_stepRow_store sendOk (joinRows users store) (store, [])
  have hres2 : (deliveryCycle users store sendOk).2 =
      ((joinRows users store).filter (fun r => !rowMuted r)).map
        (fun r => r.1.id) :=
    foldl_stepRow_calls sendOk (joinRows users store) (store, [])
  refine ⟨?_, ?_, ?_, ?_⟩
  · intro m hm hmid
    rw [hres1] at hm
    obtain ⟨n₀, hn₀, rfl⟩ := List.mem_map.mp hm
    have hids : n₀.id = a.id := by
      revert hmid
      split <;> intro hmid <;> exact hmid
    have hnx : n₀ = a :=
      List.inj_on_of_nodup_map hnodup hn₀ ha hids
    subst hnx
    have hany : (joinRows users store).any
        (fun r => rowMarks sendOk r && (r.1.id == n₀.id)) = false := by
      cases hc : (joinRows users store).any
          (fun r => rowMarks sendOk r && (r.1.id == n₀.id)) with
      | false => rfl
      | true =>
        exfalso
        obtain ⟨r, hrmem, hrp⟩ := List.any_eq_true.mp hc
        obtain ⟨n₁, u₁⟩ := r
        have hj := (mem_joinRows users store).mp hrmem
        have hrid : n₁.id = n₀.id := by
          have := (Bool.and_eq_true _ _).mp hrp
          exact beq_iff_eq.mp this.2
        have hnx : n₁ = n₀ :=
          List.inj_on_of_nodup_map hnodup hj.1 ha hrid
        subst hnx
        have hu : u₁ = ua := by
          have h3 := hj.2.2
          rw [hua] at h3
          exact (Option.some.inj h3).symm
        subst hu
        have := (Bool.and_eq_true _ _).mp hrp
        simp [rowMarks, rowMuted, hra, hfa] at this
    simp [hany, hsa]
  · intro m hm hmid
    rw [hres1] at hm
    obtain ⟨n₀, hn₀, rfl⟩ := List.mem_map.mp hm
    have hids : n₀.id = b.id := by
      revert hmid
      split <;> intro hmid <;> exact hmid
    have hnx : n₀ = b :=
      List.inj_on_of_nodup_map hnodup hn₀ hb hids
    subst hnx
    have hany : (joinRows users store).any
        (fun r => rowMarks sendOk r && (r.1.id == n₀.id)) = true :=
      List.any_eq_true.mpr ⟨(n₀, ub), hrowb,
        by simp [rowMarks, rowMuted, hfb]⟩
    simp [hany]
  · rw [hres2]
    apply List.mem_map.mpr
    refine ⟨(a, ua), List.mem_filter.mpr ⟨hrowa, ?_⟩, rfl⟩
    simp [rowMuted, hra]
  · rw [hres2]
    apply List.mem_map.mpr
    refine ⟨(b, ub), List.mem_filter.mpr ⟨hrowb, ?_⟩, rfl⟩
    simp [rowMuted, hrb]

/-! ## concrete sample rows used by the witnesses -/

def wUserMuted : User :=
  { id := 1, telegram_id := 101, hh_user_id := some "hh1",
    hh_access_token := some "tok1", mute_rejections := true }

def wUserOpen : User :=
  { id := 2, telegram_id := 102, hh_user_id := some "hh2",
    hh_access_token := some "tok2", mute_rejections := false }

def wRej : Notification :=
  { id := 10, user_id := 1, kind := "message", hh_object_id := some "m1",
    text := "отказ", is_rejection := true, sent := false, created_at := 5 }

def wN1 : Notification :=
  { id := 21, user_id := 2, kind := "message", hh_object_id := some "m21",
    text := "a", is_rejection := false, sent := false, created_at := 1 }

def wN2 : Notification :=
  { id := 22, user_id := 2, kind := "message", hh_object_id := some "m22",
    text := "b", is_rejection := false, sent := false, created_at := 2 }

def wN3 : Notification :=
  { id := 23, user_id := 2, kind := "message", hh_object_id := some "m23",
    text := "c", is_rejection := false, sent := false, created_at := 3 }

theorem deliveryCycle_mute_witness :
    (([wRej].map (fun n => n.id)).Nodup ∧ wRej ∈ [wRej] ∧ wRej.sent = false ∧
      wRej.is_rejection = true ∧
      [wUserMuted].find? (fun v => v.id == wRej.user_id) = some wUserMuted) ∧
    ((wUserMuted.mute_rejections = true →
        (∀ m ∈ (deliveryCycle [wUserMuted] [wRej] (fun _ => true)).1,
          m.id = wRej.id → m.sent = true) ∧
        wRej.id ∉ (deliveryCycle [wUserMuted] [wRej] (fun _ => true)).2) ∧
      (wUserMuted.mute_rejections = false →
        wRej.id ∈ (deliveryCycle [wUserMuted] [wRej] (fun _ => true)).2)) :=
  ⟨by decide,
    deliveryCycle_mute [wUserMuted] [wRej] (fun _ => true) wRej wUserMuted
      (by decide) (by decide) (by decide) (by decide) (by decide)⟩

theorem deliveryCycle_ordered_witness :
    (wN1 ∈ [wN1, wN2, wN3] ∧ wN2 ∈ [wN1, wN2, wN3] ∧ wN3 ∈ [wN1, wN2, wN3] ∧
      wN1.sent = false ∧ wN2.sent = false ∧ wN3.sent = false ∧
      wN1.is_rejection = false ∧ wN2.is_rejection = false ∧
      wN3.is_rejection = false ∧
      [wUserOpen].find? (fun v => v.id == wN1.user_id) = some wUserOpen ∧
      [wUserOpen].find? (fun v => v.id == wN2.user_id) = some wUserOpen ∧
      [wUserOpen].find? (fun v => v.id == wN3.user_id) = some wUserOpen ∧
      wN1.user_id = wN2.user_id ∧ wN2.user_id = wN3.user_id ∧
      wN1.created_at < wN2.created_at ∧ wN2.created_at < wN3.created_at) ∧
    List.Sublist [wN1.id, wN2.id, wN3.id]
      (deliveryCycle [wUserOpen] [wN1, wN2, wN3] (fun _ => true)).2 :=
  ⟨by decide,
    deliveryCycle_ordered [wUserOpen] [wN1, wN2, wN3] (fun _ => true)
      wN1 wN2 wN3 wUserOpen wUserOpen wUserOpen
      (by decide) (by decide) (by decide) (by decide) (by decide) (by decide)
      (by decide) (by decide) (by decide) (by decide) (by decide) (by decide)
      (by decide) (by decide) (by decide) (by decide)⟩

theorem deliveryCycle_partial_failure_witness :
    (([wN1, wN2].map (fun n => n.id)).Nodup ∧
      wN1 ∈ [wN1, wN2] ∧ wN2 ∈ [wN1, wN2] ∧
      wN1.sent = false ∧ wN2.sent = false ∧
      wN1.is_rejection = false ∧ wN2.is_rejection = false ∧
      [wUserOpen].find? (fun v => v.id == wN1.user_id) = some wUserOpen ∧
      [wUserOpen].find? (fun v => v.id == wN2.user_id) = some wUserOpen ∧
      (fun i => i == 22) wN1.id = false ∧ (fun i => i == 22) wN2.id = true) ∧
    ((∀ m ∈ (deliveryCycle [wUserOpen] [wN1, wN2] (fun i => i == 22)).1,
        m.id = wN1.id → m.sent = false) ∧
      (∀ m ∈ (deliveryCycle [wUserOpen] [wN1, wN2] (fun i => i == 22)).1,
        m.id = wN2.id → m.sent = true) ∧
      wN1.id ∈ (deliveryCycle [wUserOpen] [wN1, wN2] (fun i => i == 22)).2 ∧
      wN2.id ∈ (deliveryCycle [wUserOpen] [wN1, wN2] (fun i => i == 22)).2) :=
  ⟨by decide,
    deliveryCycle_partial_failure [wUserOpen] [wN1, wN2] (fun i => i == 22)
      wN1 wN2 wUserOpen wUserOpen
      (by decide) (by decide) (by decide) (by decide) (by decide) (by decide)
      (by decide) (by decide) (by decide) (by decide) (by decide)⟩

/-! ## Poll ingestor (`hh_messages_worker`, bot.py 169-271) -/

/-- One message of `/negotiations/{nid}/messages` as the worker reads it:
`id` and `text` may be absent from the payload, `author.me` defaults to
false.  `id` carries the string coercion of the JSON value when present;
an absent `id` is `none` and `str(msg.get("id"))` then yields "None". -/
structure HHMessage where
  id : Option String
  text : Option String
  author_me : Bool
deriving DecidableEq, Repr

/-- One negotiation of `/negotiations` together with the messages the worker
would fetch for it (the HTTP fetches are modelled as already-resolved data;
fetch failures skip a negotiation, which the claims never exercise). -/
structure Negotiation where
  id : Option String
  topic_id : Option String
  messages : List HHMessage
deriving DecidableEq, Repr

/-- Dedup predicate of bot.py 241-247: an existing notification with this
user, kind "message" and this hh object id. -/
def msgNotifMatches (uid : Nat) (mid : String) (n : Notification) : Bool :=
  n.user_id == uid && n.kind == "message" && n.hh_object_id == some mid

/-- Body of the message loop (bot.py 231-263).  The accumulator carries the
store and the next fresh id, which also serves as the creation timestamp.
Outbound (`author.me`) and blank messages are skipped; then the dedup check;
otherwise a new kind="message" notification is inserted. -/
def processMsg (user : User) (acc : List Notification × Nat)
    (msg : HHMessage) : List Notification × Nat :=
  if msg.author_me || ((msg.text.getD "").trim == "") then acc
  else if acc.1.any (msgNotifMatches user.id (pyStr msg.id)) then acc
  else
    (acc.1 ++ [{ id := acc.2, user_id := user.id, kind := "message",
                 hh_object_id := some (pyStr msg.id),
                 text := "💬 Новое сообщение на hh.ru:\n\n" ++
                   (msg.text.getD "").trim,
                 is_rejection := classify ((msg.text.getD "").trim),
                 sent := false, created_at := acc.2 }],
     acc.2 + 1)

/-- Body of the negotiation loop (bot.py 213-263): negotiations whose
`id or topic_id` is falsy are skipped, otherwise their messages are
processed. -/
def processNeg (user : User) (acc : List Notification × Nat)
    (neg : Negotiation) : List Notification × Nat :=
  match pyOrStr neg.id neg.topic_id with
  | none => acc
  | some nid =>
    if nid == "" then acc else neg.messages.foldl (processMsg user) acc

/-- Processing of all negotiations of one user (bot.py 210-265). -/
def pollUser (user : User) (negs : List Negotiation)
    (acc : List Notification × Nat) : List Notification × Nat :=
  negs.foldl (processNeg user) acc

/-- Python truthiness of the token guard `if not user.hh_access_token`
(bot.py 191). -/
def userTokenLive (u : User) : Bool :=
  match u.hh_access_token with
  | some t => !(t == "")
  | none => false

/-- Per-user step of the cycle loop: the guard of bot.py 190-192 followed by
that user's negotiation processing. -/
def pollStep (negsOf : Nat → List Negotiation)
    (acc : List Notification × Nat) (u : User) : List Notification × Nat :=
  if userTokenLive u then pollUser u (negsOf u.id) acc else acc

/-- One cycle of `hh_messages_worker`: users with a non-null token are
selected (bot.py 185-188), falsy tokens are skipped (bot.py 191), and each
remaining user's negotiations — `negsOf` keyed by user id — are processed in
order, threading the store. -/
def pollCycle (users : List User) (negsOf : Nat → List Negotiation)
    (store : List Notification) (nextId : Nat) : List Notification × Nat :=
  (users.filter (fun u => u.hh_access_token.isSome)).foldl
    (pollStep negsOf) (store, nextId)

/-- A fetched message that survives the skip checks of bot.py 237. -/
def liveMsg (m : HHMessage) : Bool :=
  !m.author_me && !((m.text.getD "").trim == "")

/-- A negotiation that is not skipped by the guard of bot.py 214-216. -/
def negProcessed (neg : Negotiation) : Prop :=
  ∃ nid, pyOrStr neg.id neg.topic_id = some nid ∧ (nid == "") = false

/-- Store invariant behind the spec's dedup guarantee: at most one
notification per (user, kind="message", hh object id) triple. -/
def dedupInv (store : List Notification) : Prop :=
  ∀ uid mid, store.countP (msgNotifMatches uid mid) ≤ 1

/-- All live messages of the processed negotiations are already represented
for this user in the store. -/
def coveredUser (store : List Notification) (u : User)
    (negs : List Negotiation) : Prop :=
  ∀ neg ∈ negs, negProcessed neg → ∀ m ∈ neg.messages, liveMsg m = true →
    store.any (msgNotifMatches u.id (pyStr m.id)) = true

/-! ## poll ingestor lemmas -/

theorem foldl_extends {β : Type}
    (f : (List Notification × Nat) → β → (List Notification × Nat))
    (hf : ∀ acc b, ∃ l, (f acc b).1 = acc.1 ++ l) :
    ∀ (bs : List β) (acc : List Notification × Nat),
      ∃ l, (bs.foldl f acc).1 = acc.1 ++ l := by
  intro bs
  induction bs with
  | nil => intro acc; exact ⟨[], by simp⟩
  | cons b rest ih =>
    intro acc
    obtain ⟨l₁, h₁⟩ := hf acc b
    obtain ⟨l₂, h₂⟩ := ih (f acc b)
    exact ⟨l₁ ++ l₂, by rw [List.foldl_cons, h₂, h₁, List.append_assoc]⟩

theorem processMsg_extends (u : User) (acc : List Notification × Nat)
    (m : HHMessage) : ∃ l, (processMsg u acc m).1 = acc.1 ++ l := by
  unfold processMsg
  split
  · exact ⟨[], by simp⟩
  · split
    · exact ⟨[], by simp⟩
    · exact ⟨_, rfl⟩

theorem processNeg_extends (u : User) (acc : List Notification × Nat)
    (neg : Negotiation) : ∃ l, (processNeg u acc neg).1 = acc.1 ++ l := by
  unfold processNeg
  cases hp : pyOrStr neg.id neg.topic_id with
  | none => exact ⟨[], by simp⟩
  | some nid =>
    cases hne : (nid == "") with
    | true => exact ⟨[], by simp [hne]⟩
    | false =>
      simpa [hne] using
        foldl_extends (processMsg u) (processMsg_extends u) neg.messages acc

theorem pollStep_extends (negsOf : Nat → List Negotiation)
    (acc : List Notification × Nat) (u : User) :
    ∃ l, (pollStep negsOf acc u).1 = acc.1 ++ l := by
  unfold pollStep
  split
  · exact foldl_extends (processNeg u) (processNeg_extends u) (negsOf u.id) acc
  · exact ⟨[], by simp⟩

theorem any_extends {p : Notification → Bool} {s : List Notification}
    (h : s.any p = true) (l : List Notification) : (s ++ l).any p = true := by
  simp [List.any_append, h]

theorem coveredUser_mono {s : List Notification} {u : User}
    {negs : List Negotiation} (h : coveredUser s u negs)
    (l : List Notification) : coveredUser (s ++ l) u negs := by
  intro neg hneg hproc m hm hlive
  exact any_extends (h neg hneg hproc m hm hlive) l

theorem liveMsg_cond_false {m : HHMessage} (hl : liveMsg m = true) :
    (m.author_me || ((m.text.getD "").trim == "")) = false := by
  unfold liveMsg at hl
  revert hl
  cases m.author_me <;> cases ((m.text.getD "").trim == "") <;> decide

theorem liveMsg_cond_true {m : HHMessage} (hl : liveMsg m = false) :
    (m.author_me || ((m.text.getD "").trim == "")) = true := by
  unfold liveMsg at hl
  revert hl
  cases m.author_me <;> cases ((m.text.getD "").trim == "") <;> decide

theorem processMsg_covered (u : User) (acc : List Notification × Nat)
    (m : HHMessage) (hlive : liveMsg m = true) :
    (processMsg u acc m).1.any (msgNotifMatches u.id (pyStr m.id)) = true := by
  unfold processMsg
  rw [liveMsg_cond_false hlive]
  cases hdup : acc.1.any (msgNotifMatches u.id (pyStr m.id)) with
  | true => simp [hdup]
  | false => simp [hdup, List.any_append, msgNotifMatches]

theorem foldMsgs_covered (u : User) :
    ∀ (msgs : List HHMessage) (acc : List Notification × Nat) (m : HHMessage),
      m ∈ msgs → liveMsg m = true →
      (msgs.foldl (processMsg u) acc).1.any
        (msgNotifMatches u.id (pyStr m.id)) = true := by
  intro msgs
  induction msgs with
  | nil => intro acc m hm; cases hm
  | cons m₀ rest ih =>
    intro acc m hm hlive
    rw [List.foldl_cons]
    rcases List.mem_cons.mp hm with rfl | hm'
    · obtain ⟨l, hl⟩ := foldl_extends (processMsg u) (processMsg_extends u)
        rest (processMsg u acc m)
      rw [hl]
      exact any_extends (processMsg_covered u acc m hlive) l
    · exact ih (processMsg u acc m₀) m hm' hlive

theorem processNeg_covered (u : User) (acc : List Notification × Nat)
    (neg : Negotiation) (hproc : negProcessed neg) :
    ∀ m ∈ neg.messages, liveMsg m = true →
      (processNeg u acc neg).1.any (msgNotifMatches u.id (pyStr m.id)) = true := by
  intro m hm hlive
  obtain ⟨nid, hp, hne⟩ := hproc
  unfold processNeg
  simp only [hp, hne, Bool.false_eq_true, if_false]
  exact foldMsgs_covered u neg.messages acc m hm hlive

theorem pollUser_covered (u : User) :
    ∀ (negs : List Negotiation) (acc : List Notification × Nat),
      coveredUser (pollUser u negs acc).1 u negs := by
  intro negs
  induction negs with
  | nil => intro acc neg hneg; cases hneg
  | cons neg₀ rest ih =>
    intro acc neg hneg hproc m hm hlive
    unfold pollUser
    rw [List.foldl_cons]
    rcases List.mem_cons.mp hneg with rfl | hneg'
    · obtain ⟨l, hl⟩ := foldl_extends (processNeg u) (processNeg_extends u)
        rest (processNeg u acc neg)
      rw [hl]
      exact any_extends (processNeg_covered u acc neg hproc m hm hlive) l
    · exact ih (processNeg u acc neg₀) neg hneg' hproc m hm hlive

theorem processMsg_skip (u : User) (acc : List Notification × Nat)
    (m : HHMessage)
    (h : liveMsg m = true →
      acc.1.any (msgNotifMatches u.id (pyStr m.id)) = true) :
    processMsg u acc m = acc := by
  unfold processMsg
  cases hl : liveMsg m with
  | false => simp [liveMsg_cond_true hl]
  | true =>
    rw [liveMsg_cond_false hl]
    simp [h hl]

theorem foldMsgs_noop (u : User) :
    ∀ (msgs : List HHMessage) (acc : List Notification × Nat),
      (∀ m ∈ msgs, liveMsg m = true →
        acc.1.any (msgNotifMatches u.id (pyStr m.id)) = true) →
      msgs.foldl (processMsg u) acc = acc := by
  intro msgs
  induction msgs with
  | nil => intro acc _; rfl
  | cons m₀ rest ih =>
    intro acc h
    rw [List.foldl_cons, processMsg_skip u acc m₀ (h m₀ (List.mem_cons_self _ _))]
    exact ih acc (fun m hm => h m (List.mem_cons_of_mem _ hm))

theorem processNeg_noop (u : User) (acc : List Notification × Nat)
    (neg : Negotiation)
    (h : negProcessed neg → ∀ m ∈ neg.messages, liveMsg m = true →
      acc.1.any (msgNotifMatches u.id (pyStr m.id)) = true) :
    processNeg u acc neg = acc := by
  unfold processNeg
  cases hp : pyOrStr neg.id neg.topic_id with
  | none => rfl
  | some nid =>
    cases hne : (nid == "") with
    | true => simp [hne]
    | false =>
      simp only [hne, Bool.false_eq_true, if_false]
      exact foldMsgs_noop u neg.messages acc (h ⟨nid, hp, hne⟩)

theorem pollUser_noop (u : User) :
    ∀ (negs : List Negotiation) (acc : List Notification × Nat),
      coveredUser acc.1 u negs → pollUser u negs acc = acc := by
  intro negs
  induction negs with
  | nil => intro acc _; rfl
  | cons neg₀ rest ih =>
    intro acc h
    unfold pollUser
    rw [List.foldl_cons,
      processNeg_noop u acc neg₀ (h neg₀ (List.mem_cons_self _ _))]
    exact ih acc (fun neg hneg => h neg (List.mem_cons_of_mem _ hneg))

theorem pollStep_noop (negsOf : Nat → List Negotiation)
    (acc : List Notification × Nat) (u : User)
    (h : userTokenLive u = true → coveredUser acc.1 u (negsOf u.id)) :
    pollStep negsOf acc u = acc := by
  unfold pollStep
  cases hl : userTokenLive u with
  | true =>
    simp only [if_true]
    exact pollUser_noop u (negsOf u.id) acc (h hl)
  | false => simp

theorem foldUsers_covered (negsOf : Nat → List Negotiation) :
    ∀ (us : List User) (acc : List Notification × Nat) (u : User),
      u ∈ us → userTokenLive u = true →
      coveredUser ((us.foldl (pollStep negsOf) acc).1) u (negsOf u.id) := by
  intro us
  induction us with
  | nil => intro acc u hu; cases hu
  | cons u₀ rest ih =>
    intro acc u hu hlive
    rw [List.foldl_cons]
    rcases List.mem_cons.mp hu with rfl | hu'
    · obtain ⟨l, hl⟩ := foldl_extends (pollStep negsOf)
        (pollStep_extends negsOf) rest (pollStep negsOf acc u)
      rw [hl]
      have hcov : coveredUser ((pollStep negsOf acc u).1) u (negsOf u.id) := by
        unfold pollStep
        rw [hlive]
        simp only [if_true]
        exact pollUser_covered u (negsOf u.id) acc
      exact coveredUser_mono hcov l
    · exact ih (pollStep negsOf acc u₀) u hu' hlive

theorem foldUsers_noop (negsOf : Nat → List Negotiation) :
    ∀ (us : List User) (acc : List Notification × Nat),
      (∀ u ∈ us, userTokenLive u = true →
        coveredUser acc.1 u (negsOf u.id)) →
      us.foldl (pollStep negsOf) acc = acc := by
  intro us
  induction us with
  | nil => intro acc _; rfl
  | cons u₀ rest ih =>
    intro acc h
    rw [List.foldl_cons, pollStep_noop negsOf acc u₀ (h u₀ (List.mem_cons_self _ _))]
    exact ih acc (fun u hu => h u (List.mem_cons_of_mem _ hu))

theorem foldl_preserve {β : Type} (P : List Notification × Nat → Prop)
    (f : (List Notification × Nat) → β → (List Notification × Nat))
    (hf : ∀ acc b, P acc → P (f acc b)) :
    ∀ (bs : List β) (acc : List Notification × Nat), P acc → P (bs.foldl f acc) := by
  intro bs
  induction bs with
  | nil => intro acc h; exact h
  | cons b rest ih =>
    intro acc h
    rw [List.foldl_cons]
    exact ih (f acc b) (hf acc b h)

theorem processMsg_dedupInv (u : User) (acc : List Notification × Nat)
    (m : HHMessage) (h : dedupInv acc.1) : dedupInv (processMsg u acc m).1 := by
  unfold processMsg
  split
  · exact h
  · split
    · exact h
    · rename_i hdup
      intro uid mid
      have hz : acc.1.countP (msgNotifMatches u.id (pyStr m.id)) = 0 := by
        rw [List.countP_eq_zero]
        intro a ha hpa
        exact hdup (List.any_eq_true.mpr ⟨a, ha, hpa⟩)
      rw [List.countP_append]
      cases hnp : msgNotifMatches uid mid
          { id := acc.2, user_id := u.id, kind := "message",
            hh_object_id := some (pyStr m.id),
            text := "💬 Новое сообщение на hh.ru:\n\n" ++ (m.text.getD "").trim,
            is_rejection := classify ((m.text.getD "").trim),
            sent := false, created_at := acc.2 } with
      | false =>
        have h1 := h uid mid
        simp only [List.countP_cons, List.countP_nil, hnp, Bool.false_eq_true,
          if_false]
        omega
      | true =>
        have h3 := hnp
        simp only [msgNotifMatches, Bool.and_eq_true, beq_iff_eq,
          Option.some.injEq] at h3
        obtain ⟨⟨h4, _⟩, h5⟩ := h3
        subst h4
        subst h5
        simp only [List.countP_cons, List.countP_nil, hnp, if_true]
        omega

theorem processNeg_dedupInv (u : User) (acc : List Notification × Nat)
    (neg : Negotiation) (h : dedupInv acc.1) :
    dedupInv (processNeg u acc neg).1 := by
  unfold processNeg
  cases hp : pyOrStr neg.id neg.topic_id with
  | none => exact h
  | some nid =>
    cases hne : (nid == "") with
    | true => simpa [hne] using h
    | false =>
      simpa [hne] using
        foldl_preserve (fun acc => dedupInv acc.1) (processMsg u)
          (fun a mm => processMsg_dedupInv u a mm) neg.messages acc h

theorem pollStep_dedupInv (negsOf : Nat → List Negotiation)
    (acc : List Notification × Nat) (u : User) (h : dedupInv acc.1) :
    dedupInv (pollStep negsOf acc u).1 := by
  unfold pollStep
  split
  · exact foldl_preserve (fun acc => dedupInv acc.1) (processNeg u)
      (fun a nn => processNeg_dedupInv u a nn) (negsOf u.id) acc h
  · exact h

theorem pollCycle_dedupInv (users : List User)
    (negsOf : Nat → List Negotiation) (store : List Notification)
    (nextId : Nat) (h : dedupInv store) :
    dedupInv (pollCycle users negsOf store nextId).1 :=
  foldl_preserve (fun acc => dedupInv acc.1) (pollStep negsOf)
    (fun a u => pollStep_dedupInv negsOf a u)
    (users.filter (fun u => u.hh_access_token.isSome)) (store, nextId) h

/-- C2: with the store dedup invariant, one poll cycle leaves a store on
which a second identical cycle is a no-op, the invariant still holds, and
every live message of a processed negotiation of a processed user is
represented by exactly one kind="message" notification. -/
theorem pollCycle_idempotent_dedup (users : List User)
    (negsOf : Nat → List Negotiation) (store : List Notification)
    (nextId : Nat) (hinv : dedupInv store) :
    pollCycle users negsOf (pollCycle users negsOf store nextId).1
        (pollCycle users negsOf store nextId).2 =
      pollCycle users negsOf store nextId ∧
    dedupInv (pollCycle users negsOf store nextId).1 ∧
    (∀ u ∈ users, userTokenLive u = true →
      ∀ neg ∈ negsOf u.id, negProcessed neg →
        ∀ m ∈ neg.messages, liveMsg m = true →
          (pollCycle users negsOf store nextId).1.countP
            (msgNotifMatches u.id (pyStr m.id)) = 1) := by
  have hinv2 := pollCycle_dedupInv users negsOf store nextId hinv
  refine ⟨?_, hinv2, ?_⟩
  · apply foldUsers_noop
    intro u hu hlive
    exact foldUsers_covered negsOf
      (users.filter (fun v => v.hh_access_token.isSome)) (store, nextId)
      u hu hlive
  · intro u hu hlive neg hneg hproc m hm hmlive
    have hisSome : u.hh_access_token.isSome = true := by
      unfold userTokenLive at hlive
      cases hts : u.hh_access_token with
      | none => rw [hts] at hlive; exact absurd hlive (by decide)
      | some t => rfl
    have hu2 : u ∈ users.filter (fun v => v.hh_access_token.isSome) :=
      List.mem_filter.mpr ⟨hu, hisSome⟩
    have hany := foldUsers_covered negsOf
      (users.filter (fun v => v.hh_access_token.isSome)) (store, nextId)
      u hu2 hlive neg hneg hproc m hm hmlive
    have hle := hinv2 u.id (pyStr m.id)
    have hpos : 0 < (pollCycle users negsOf store nextId).1.countP
        (msgNotifMatches u.id (pyStr m.id)) := by
      rw [List.countP_pos_iff]
      obtain ⟨a, ha, hpa⟩ := List.any_eq_true.mp hany
      exact ⟨a, ha, hpa⟩
    omega

/-- C10: an id-less polled message gets the dedup key "None" (the string
coercion of a missing value), the poll cycle keeps at most one
(user, kind="message", "None") notification per user, and once such a
notification exists every further id-less message is skipped whatever its
text. -/
theorem pollCycle_idless_dedup (users : List User)
    (negsOf : Nat → List Negotiation) (store : List Notification)
    (nextId : Nat) (hinv : dedupInv store) :
    pyStr none = "None" ∧
    (∀ uid, (pollCycle users negsOf store nextId).1.countP
        (msgNotifMatches uid "None") ≤ 1) ∧
    (∀ (u : User) (acc : List Notification × Nat) (m : HHMessage),
      m.id = none → acc.1.any (msgNotifMatches u.id "None") = true →
      processMsg u acc m = acc) := by
  refine ⟨rfl, ?_, ?_⟩
  · intro uid
    exact pollCycle_dedupInv users negsOf store nextId hinv uid "None"
  · intro u acc m hid hany
    apply processMsg_skip
    intro _
    rw [hid]
    exact hany

/-! ## sample poll data for the witnesses -/

def wMsgA : HHMessage :=
  { id := some "m9", text := some "Здравствуйте!", author_me := false }

def wNegA : Negotiation :=
  { id := some "n1", topic_id := none, messages := [wMsgA] }

def wMsgNoId1 : HHMessage :=
  { id := none, text := some "hello", author_me := false }

def wMsgNoId2 : HHMessage :=
  { id := none, text := some "world", author_me := false }

def wNegNoId : Negotiation :=
  { id := some "n2", topic_id := none, messages := [wMsgNoId1, wMsgNoId2] }

theorem pollCycle_idempotent_dedup_witness :
    dedupInv ([] : List Notification) ∧
    (pollCycle [wUserOpen] (fun _ => [wNegA])
        (pollCycle [wUserOpen] (fun _ => [wNegA]) [] 0).1
        (pollCycle [wUserOpen] (fun _ => [wNegA]) [] 0).2 =
      pollCycle [wUserOpen] (fun _ => [wNegA]) [] 0 ∧
    dedupInv (pollCycle [wUserOpen] (fun _ => [wNegA]) [] 0).1 ∧
    (∀ u ∈ [wUserOpen], userTokenLive u = true →
      ∀ neg ∈ [wNegA], negProcessed neg →
        ∀ m ∈ neg.messages, liveMsg m = true →
          (pollCycle [wUserOpen] (fun _ => [wNegA]) [] 0).1.countP
            (msgNotifMatches u.id (pyStr m.id)) = 1)) :=
  ⟨fun _ _ => by simp,
    pollCycle_idempotent_dedup [wUserOpen] (fun _ => [wNegA]) [] 0
      (fun _ _ => by simp)⟩

theorem pollCycle_idless_dedup_witness :
    dedupInv ([] : List Notification) ∧
    (pyStr none = "None" ∧
    (∀ uid, (pollCycle [wUserOpen] (fun _ => [wNegNoId]) [] 0).1.countP
        (msgNotifMatches uid "None") ≤ 1) ∧
    (∀ (u : User) (acc : List Notification × Nat) (m : HHMessage),
      m.id = none → acc.1.any (msgNotifMatches u.id "None") = true →
      processMsg u acc m = acc)) :=
  ⟨fun _ _ => by simp,
    pollCycle_idless_dedup [wUserOpen] (fun _ => [wNegNoId]) [] 0
      (fun _ _ => by simp)⟩

/-! ## Webhook endpoint (`hh_web.py` 110-118, 192-263) -/

/-- Keyword list of `is_rejection_state` (hh_web.py 117). -/
def bad_keywords : List String :=
  ["discard", "rejected", "decline", "отказ", "закрыто", "завершено"]

/-- `is_rejection_state` (hh_web.py 110-118): lower-case the state and look
for any bad keyword as a substring. -/
def is_rejection_state (to_state : String) : Bool :=
  bad_keywords.any (fun k => strContains (pyLower to_state) k)

/-- The `payload` dict of a webhook event, restricted to the keys the handler
reads; every key may be absent. -/
structure WebhookPayload where
  vacancy_id : Option String
  resume_id : Option String
  topic_id : Option String
  chat_id : Option String
  from_state : Option String
  to_state : Option String
  transferred_at : Option String
deriving DecidableEq, Repr

/-- The JSON body of a webhook request.  `none` models an absent key; the
pydantic `WebhookEvent` model requires all five. -/
structure WebhookData where
  id : Option String
  subscription_id : Option String
  action_type : Option String
  user_id : Option String
  payload : Option WebhookPayload
deriving DecidableEq, Repr

/-- An HTTP response as the caller sees it. -/
structure HttpResponse where
  status : Nat
  body : String
deriving DecidableEq, Repr

/-- The `/hh/webhook` handler (hh_web.py 192-263).  A body missing a required
field makes `WebhookEvent(**data)` raise; FastAPI has no handler for
`pydantic.ValidationError`, so the framework answers 500 — the wildcard
branch.  Otherwise: unknown `hh_user_id` is acknowledged with 200 and no
insert; the two supported action types insert exactly one notification;
any other action type is acknowledged with 200 and no insert. -/
def hh_webhook (users : List User) (store : List Notification) (nextId : Nat)
    (data : WebhookData) : HttpResponse × List Notification :=
  match data.id, data.subscription_id, data.action_type, data.user_id,
      data.payload with
  | some _, some _, some action, some uid, some payload =>
    match users.find? (fun u => u.hh_user_id == some uid) with
    | none => ({ status := 200, body := "unknown user" }, store)
    | some user =>
      if action == "NEW_RESPONSE_OR_INVITATION_VACANCY" then
        ({ status := 200, body := "ok" },
         store ++ [{ id := nextId, user_id := user.id, kind := "invitation",
                     hh_object_id := pyOrStr payload.topic_id payload.chat_id,
                     text := "📩 Новое приглашение / отклик на hh.ru\n" ++
                       "vacancy_id: " ++ pyStr payload.vacancy_id ++
                       "\nresume_id: " ++ pyStr payload.resume_id,
                     is_rejection := false, sent := false,
                     created_at := nextId }])
      else if action == "NEGOTIATION_EMPLOYER_STATE_CHANGE" then
        ({ status := 200, body := "ok" },
         store ++ [{ id := nextId, user_id := user.id, kind := "state_change",
                     hh_object_id := payload.topic_id,
                     text := "📂 Изменение этапа отклика на hh.ru\n" ++
                       "vacancy_id: " ++ pyStr payload.vacancy_id ++
                       "\nresume_id: " ++ pyStr payload.resume_id ++ "\n" ++
                       pyStr payload.from_state ++ " ➜ " ++
                       pyStr payload.to_state ++ " (" ++
                       pyStr payload.transferred_at ++ ")",
                     is_rejection := is_rejection_state (pyStr payload.to_state),
                     sent := false, created_at := nextId }])
      else ({ status := 200, body := "ignored" }, store)
  | _, _, _, _, _ =>
    ({ status := 500, body := "Internal Server Error" }, store)

/-- C6: a structurally valid webhook event whose external identity matches no
known user is acknowledged with 200 and the store is unchanged. -/
theorem hh_webhook_unknown_user (users : List User)
    (store : List Notification) (nextId : Nat) (data : WebhookData)
    (uid : String)
    (hid : data.id.isSome = true) (hsub : data.subscription_id.isSome = true)
    (hact : data.action_type.isSome = true)
    (hpay : data.payload.isSome = true)
    (huid : data.user_id = some uid)
    (hfind : users.find? (fun u => u.hh_user_id == some uid) = none) :
    (hh_webhook users store nextId data).1.status = 200 ∧
    (hh_webhook users store nextId data).2 = store := by
  obtain ⟨i, hi⟩ := Option.isSome_iff_exists.mp hid
  obtain ⟨sb, hsb⟩ := Option.isSome_iff_exists.mp hsub
  obtain ⟨act, hact2⟩ := Option.isSome_iff_exists.mp hact
  obtain ⟨pl, hpl⟩ := Option.isSome_iff_exists.mp hpay
  unfold hh_webhook
  simp [hi, hsb, hact2, huid, hpl, hfind]

/-! ## sample webhook data for the witnesses -/

def wPayloadInv : WebhookPayload :=
  { vacancy_id := some "1", resume_id := some "2", topic_id := some "t1",
    chat_id := none, from_state := none, to_state := none,
    transferred_at := none }

def wGoodData : WebhookData :=
  { id := some "e1", subscription_id := some "s1",
    action_type := some "NEW_RESPONSE_OR_INVITATION_VACANCY",
    user_id := some "E", payload := some wPayloadInv }

def wBadData : WebhookData :=
  { id := none, subscription_id := some "s1",
    action_type := some "NEW_RESPONSE_OR_INVITATION_VACANCY",
    user_id := some "E", payload := some wPayloadInv }

def wUserLinked : User :=
  { id := 3, telegram_id := 103, hh_user_id := some "E",
    hh_access_token := some "tok3", mute_rejections := true }

theorem hh_webhook_unknown_user_witness :
    (wGoodData.id.isSome = true ∧ wGoodData.subscription_id.isSome = true ∧
      wGoodData.action_type.isSome = true ∧ wGoodData.payload.isSome = true ∧
      wGoodData.user_id = some "E" ∧
      [wUserMuted].find? (fun u => u.hh_user_id == some "E") = none) ∧
    ((hh_webhook [wUserMuted] [] 0 wGoodData).1.status = 200 ∧
      (hh_webhook [wUserMuted] [] 0 wGoodData).2 = []) :=
  ⟨by decide,
    hh_webhook_unknown_user [wUserMuted] [] 0 wGoodData "E"
      (by decide) (by decide) (by decide) (by decide) (by decide) (by decide)⟩

/-- C8 counterexample: a webhook body missing the required `id` field is
answered with status 500 — a server error, not a 4xx client error as the
claim states (the handler builds the pydantic model itself, so the
validation failure escapes as an unhandled exception). -/
theorem hh_webhook_missing_field_not_client_error :
    (hh_webhook [wUserLinked] [] 0 wBadData).1.status = 500 ∧
    ¬(400 ≤ (hh_webhook [wUserLinked] [] 0 wBadData).1.status ∧
      (hh_webhook [wUserLinked] [] 0 wBadData).1.status < 500) := by
  decide

/-- C8 amended: a webhook body missing any required field is rejected
synchronously with a 500 server error and no notification is created. -/
theorem hh_webhook_missing_field_500 (users : List User)
    (store : List Notification) (nextId : Nat) (data : WebhookData)
    (h : data.id = none ∨ data.subscription_id = none ∨
      data.action_type = none ∨ data.user_id = none ∨ data.payload = none) :
    (hh_webhook users store nextId data).1.status = 500 ∧
    (hh_webhook users store nextId data).2 = store := by
  unfold hh_webhook
  rcases h1 : data.id with _ | i <;>
    rcases h2 : data.subscription_id with _ | sb <;>
      rcases h3 : data.action_type with _ | act <;>
        rcases h4 : data.user_id with _ | uid <;>
          rcases h5 : data.payload with _ | pl <;>
            simp_all

theorem hh_webhook_missing_field_500_witness :
    (wBadData.id = none ∨ wBadData.subscription_id = none ∨
      wBadData.action_type = none ∨ wBadData.user_id = none ∨
      wBadData.payload = none) ∧
    ((hh_webhook [wUserLinked] [] 0 wBadData).1.status = 500 ∧
      (hh_webhook [wUserLinked] [] 0 wBadData).2 = []) :=
  ⟨by decide,
    hh_webhook_missing_field_500 [wUserLinked] [] 0 wBadData (by decide)⟩

/-- Helper for the end-to-end scenario: a pending non-rejection notification
whose id is unique in the store and whose send call succeeds is delivered
(its id appears in the call list) and marked sent by one delivery cycle. -/
theorem deliveryCycle_delivers (users : List User)
    (store : List Notification) (sendOk : Nat → Bool)
    (x : Notification) (u : User)
    (huniq : ∀ n ∈ store, n.id = x.id → n = x)
    (hx : x ∈ store) (hsent : x.sent = false) (hrej : x.is_rejection = false)
    (hfind : users.find? (fun v => v.id == x.user_id) = some u)
    (hsend : sendOk x.id = true) :
    (∀ m ∈ (deliveryCycle users store sendOk).1, m.id = x.id → m.sent = true) ∧
    x.id ∈ (deliveryCycle users store sendOk).2 := by
  have hrow : (x, u) ∈ joinRows users store :=
    (mem_joinRows users store).mpr ⟨hx, hsent, hfind⟩
  have hres1 : (deliveryCycle users store sendOk).1 =
      store.map (fun n =>
        if (joinRows users store).any
            (fun r => rowMarks sendOk r && (r.1.id == n.id)) then
          { n with sent := true }
        else n) :=
    foldl_stepRow_store sendOk (joinRows users store) (store, [])
  have hres2 : (deliveryCycle users store sendOk).2 =
      ((joinRows users store).filter (fun r => !rowMuted r)).map
        (fun r => r.1.id) :=
    foldl_stepRow_calls sendOk (joinRows users store) (store, [])
  constructor
  · intro m hm hmid
    rw [hres1] at hm
    obtain ⟨n₀, hn₀, rfl⟩ := List.mem_map.mp hm
    have hids : n₀.id = x.id := by
      revert hmid
      split <;> intro hmid <;> exact hmid
    have hnx : n₀ = x := huniq n₀ hn₀ hids
    subst hnx
    have hany : (joinRows users store).any
        (fun r => rowMarks sendOk r && (r.1.id == n₀.id)) = true :=
      List.any_eq_true.mpr ⟨(n₀, u), hrow,
        by simp [rowMarks, rowMuted, hsend]⟩
    simp [hany]
  · rw [hres2]
    apply List.mem_map.mpr
    refine ⟨(x, u), List.mem_filter.mpr ⟨hrow, ?_⟩, rfl⟩
    simp [rowMuted, hrej]

/-- C7: a NEW_RESPONSE_OR_INVITATION_VACANCY event for a known linked user
with payload vacancy_id="1", resume_id="2", topic_id="t1" creates exactly one
kind="invitation" notification with is_rejection=false and object id "t1",
and the next delivery worker cycle sends it and marks it sent. -/
theorem hh_webhook_invitation_end_to_end (users : List User)
    (store : List Notification) (nextId : Nat) (data : WebhookData)
    (sendOk : Nat → Bool) (u : User) (uid : String) (pl : WebhookPayload)
    (hid : data.id.isSome = true) (hsub : data.subscription_id.isSome = true)
    (hact : data.action_type = some "NEW_RESPONSE_OR_INVITATION_VACANCY")
    (huid : data.user_id = some uid) (hpl : data.payload = some pl)
    (hplv : pl.vacancy_id = some "1") (hplr : pl.resume_id = some "2")
    (hplt : pl.topic_id = some "t1")
    (hfind : users.find? (fun v => v.hh_user_id == some uid) = some u)
    (hfindid : users.find? (fun v => v.id == u.id) = some u)
    (hfresh : ∀ n ∈ store, n.id ≠ nextId)
    (hsend : sendOk nextId = true) :
    (hh_webhook users store nextId data).1.status = 200 ∧
    (∃ notif, (hh_webhook users store nextId data).2 = store ++ [notif] ∧
      notif.kind = "invitation" ∧ notif.is_rejection = false ∧
      notif.hh_object_id = some "t1" ∧ notif.sent = false ∧
      notif.id = nextId ∧ notif.user_id = u.id) ∧
    (∀ m ∈ (deliveryCycle users (hh_webhook users store nextId data).2 sendOk).1,
      m.id = nextId → m.sent = true) ∧
    nextId ∈ (deliveryCycle users (hh_webhook users store nextId data).2 sendOk).2 := by
  obtain ⟨i, hi⟩ := Option.isSome_iff_exists.mp hid
  obtain ⟨sb, hsb⟩ := Option.isSome_iff_exists.mp hsub
  have ht1 : (("t1" : String) == "") = false := by decide
  have hres : hh_webhook users store nextId data =
      ({ status := 200, body := "ok" },
       store ++ [{ id := nextId, user_id := u.id, kind := "invitation",
                   hh_object_id := some "t1",
                   text := "📩 Новое приглашение / отклик на hh.ru\n" ++
                     "vacancy_id: " ++ "1" ++ "\nresume_id: " ++ "2",
                   is_rejection := false, sent := false,
                   created_at := nextId }]) := by
    unfold hh_webhook
    simp only [hi, hsb, hact, huid, hpl, hfind, hplv, hplr, hplt,
      beq_self_eq_true, if_true, pyOrStr, pyStr, ht1, Bool.false_eq_true,
      if_false]
  rw [hres]
  set x : Notification :=
    { id := nextId, user_id := u.id, kind := "invitation",
      hh_object_id := some "t1",
      text := "📩 Новое приглашение / отклик на hh.ru\n" ++
        "vacancy_id: " ++ "1" ++ "\nresume_id: " ++ "2",
      is_rejection := false, sent := false, created_at := nextId } with hxdef
  have huniq : ∀ n ∈ store ++ [x], n.id = x.id → n = x := by
    intro n hn hnid
    rcases List.mem_append.mp hn with hL | hR
    · exact absurd hnid (hfresh n hL)
    · exact List.mem_singleton.mp hR
  have hxmem : x ∈ store ++ [x] :=
    List.mem_append_right _ (List.mem_singleton.mpr rfl)
  have hmain := deliveryCycle_delivers users (store ++ [x]) sendOk x u
    huniq hxmem rfl rfl hfindid hsend
  exact ⟨rfl, ⟨x, rfl, rfl, rfl, rfl, rfl, rfl, rfl⟩, hmain.1, hmain.2⟩

theorem hh_webhook_invitation_end_to_end_witness :
    (wGoodData.id.isSome = true ∧ wGoodData.subscription_id.isSome = true ∧
      wGoodData.action_type = some "NEW_RESPONSE_OR_INVITATION_VACANCY" ∧
      wGoodData.user_id = some "E" ∧ wGoodData.payload = some wPayloadInv ∧
      wPayloadInv.vacancy_id = some "1" ∧ wPayloadInv.resume_id = some "2" ∧
      wPayloadInv.topic_id = some "t1" ∧
      [wUserLinked].find? (fun v => v.hh_user_id == some "E") =
        some wUserLinked ∧
      [wUserLinked].find? (fun v => v.id == wUserLinked.id) =
        some wUserLinked ∧
      (∀ n ∈ ([] : List Notification), n.id ≠ 0) ∧
      (fun _ : Nat => true) 0 = true) ∧
    ((hh_webhook [wUserLinked] [] 0 wGoodData).1.status = 200 ∧
      (∃ notif, (hh_webhook [wUserLinked] [] 0 wGoodData).2 = [] ++ [notif] ∧
        notif.kind = "invitation" ∧ notif.is_rejection = false ∧
        notif.hh_object_id = some "t1" ∧ notif.sent = false ∧
        notif.id = 0 ∧ notif.user_id = wUserLinked.id) ∧
      (∀ m ∈ (deliveryCycle [wUserLinked]
          (hh_webhook [wUserLinked] [] 0 wGoodData).2 (fun _ => true)).1,
        m.id = 0 → m.sent = true) ∧
      0 ∈ (deliveryCycle [wUserLinked]
        (hh_webhook [wUserLinked] [] 0 wGoodData).2 (fun _ => true)).2) :=
  ⟨⟨by decide, by decide, by decide, by decide, by decide, by decide,
    by decide, by decide, by decide, by decide, by simp, by decide⟩,
    hh_webhook_invitation_end_to_end [wUserLinked] [] 0 wGoodData
      (fun _ => true) wUserLinked "E" wPayloadInv
      (by decide) (by decide) (by decide) (by decide) (by decide) (by decide)
      (by decide) (by decide) (by decide) (by decide) (by simp) (by decide)⟩

theorem forall₂_map_self {R : Notification → Notification → Prop}
    (f : Notification → Notification) :
    ∀ l : List Notification, (∀ a ∈ l, R a (f a)) →
      List.Forall₂ R l (l.map f) := by
  intro l
  induction l with
  | nil => intro _; exact List.Forall₂.nil
  | cons a t ih =>
    intro h
    exact List.Forall₂.cons (h a (List.mem_cons_self _ _))
      (ih (fun b hb => h b (List.mem_cons_of_mem _ hb)))

theorem hh_webhook_extends (users : List User) (store : List Notification)
    (nextId : Nat) (data : WebhookData) :
    ∃ l, (hh_webhook users store nextId data).2 = store ++ l ∧ l.length ≤ 1 := by
  unfold hh_webhook
  rcases h1 : data.id with _ | i
  · exact ⟨[], by simp, by simp⟩
  rcases h2 : data.subscription_id with _ | sb
  · exact ⟨[], by simp, by simp⟩
  rcases h3 : data.action_type with _ | act
  · exact ⟨[], by simp, by simp⟩
  rcases h4 : data.user_id with _ | uid
  · exact ⟨[], by simp, by simp⟩
  rcases h5 : data.payload with _ | pl
  · exact ⟨[], by simp, by simp⟩
  rcases hf : users.find? (fun v => v.hh_user_id == some uid) with _ | user
  · exact ⟨[], by simp [hf], by simp⟩
  cases ha1 : (act == "NEW_RESPONSE_OR_INVITATION_VACANCY") with
  | true =>
    refine ⟨[{ id := nextId, user_id := user.id, kind := "invitation",
               hh_object_id := pyOrStr pl.topic_id pl.chat_id,
               text := "📩 Новое приглашение / отклик на hh.ru\n" ++
                 "vacancy_id: " ++ pyStr pl.vacancy_id ++
                 "\nresume_id: " ++ pyStr pl.resume_id,
               is_rejection := false, sent := false,
               created_at := nextId }], ?_, by simp⟩
    simp [hf, ha1]
  | false =>
    cases ha2 : (act == "NEGOTIATION_EMPLOYER_STATE_CHANGE") with
    | true =>
      refine ⟨[{ id := nextId, user_id := user.id, kind := "state_change",
                 hh_object_id := pl.topic_id,
                 text := "📂 Изменение этапа отклика на hh.ru\n" ++
                   "vacancy_id: " ++ pyStr pl.vacancy_id ++
                   "\nresume_id: " ++ pyStr pl.resume_id ++ "\n" ++
                   pyStr pl.from_state ++ " ➜ " ++ pyStr pl.to_state ++
                   " (" ++ pyStr pl.transferred_at ++ ")",
                 is_rejection := is_rejection_state (pyStr pl.to_state),
                 sent := false, created_at := nextId }], ?_, by simp⟩
      simp [hf, ha1, ha2]
    | false =>
      exact ⟨[], by simp [hf, ha1, ha2], by simp⟩

/-- C9: after creation only `sent` is ever mutated, only from false to true,
and only by the delivery worker; the poll ingestor and the webhook handler
only append new rows (the webhook at most one per event) and never touch
existing ones. -/
theorem notification_immutability :
    (∀ (users : List User) (store : List Notification) (sendOk : Nat → Bool),
      List.Forall₂
        (fun a b => b.id = a.id ∧ b.user_id = a.user_id ∧ b.kind = a.kind ∧
          b.hh_object_id = a.hh_object_id ∧ b.text = a.text ∧
          b.is_rejection = a.is_rejection ∧ b.created_at = a.created_at ∧
          (a.sent = true → b.sent = true))
        store (deliveryCycle users store sendOk).1) ∧
    (∀ (users : List User) (negsOf : Nat → List Negotiation)
        (store : List Notification) (nextId : Nat),
      ∃ l, (pollCycle users negsOf store nextId).1 = store ++ l) ∧
    (∀ (users : List User) (store : List Notification) (nextId : Nat)
        (data : WebhookData),
      ∃ l, (hh_webhook users store nextId data).2 = store ++ l ∧
        l.length ≤ 1) := by
  refine ⟨?_, ?_, ?_⟩
  · intro users store sendOk
    unfold deliveryCycle
    rw [foldl_stepRow_store]
    apply forall₂_map_self
    intro a _
    cases hc : (joinRows users store).any
        (fun r => rowMarks sendOk r && (r.1.id == a.id)) with
    | true => simp [hc]
    | false => simp [hc]
  · intro users negsOf store nextId
    exact foldl_extends (pollStep negsOf) (pollStep_extends negsOf)
      (users.filter (fun u => u.hh_access_token.isSome)) (store, nextId)
  · intro users store nextId data
    exact hh_webhook_extends users store nextId data
